import Mathlib

/-!
Verification development for the Ito++ option-pricing library.

The C++ headers `ito/utils/math.hpp`, `ito/model/black_scholes_model.hpp`
and `ito/method/monte_carlo.hpp` are shallowly embedded here over the real
numbers (the library instantiates its `Arithmetic` template parameter at
`double`; the embedding uses exact real arithmetic).  Mutable cache fields
of the C++ classes become explicit state passing; functions that may throw
become `Except`-valued functions; the stateful pseudo-random generator is
modelled as a seed-indexed stream of standard-normal variates together
with a consumption position.
-/

open Real

namespace Ito

/-! ## `ito/utils/math.hpp` -/

/-- Embedding of `ito::math::constants::inv_sqrt_2pi`,
defined in the source as `inv_sqrtpi_v / sqrt2_v`, i.e. `(1/√π)/√2`. -/
noncomputable def inv_sqrt_2pi : ℝ := (Real.sqrt Real.pi)⁻¹ / Real.sqrt 2

/-- Embedding of `ito::math::normal_pdf`: `inv_sqrt_2pi * exp(-x*x/2)`. -/
noncomputable def normal_pdf (x : ℝ) : ℝ := inv_sqrt_2pi * Real.exp (-x * x / 2)

/-- The `x ≥ 0` branch of `ito::math::normal_cdf` (the Abramowitz–Stegun
rational approximation with Horner evaluation).  The source function calls
itself once, with a nonnegative argument, when `x < 0`; `normal_cdf` below
unfolds that single recursion step through this helper. -/
noncomputable def normal_cdf_core (x : ℝ) : ℝ :=
  let a1 : ℝ := 0.319381530
  let a2 : ℝ := -0.356563782
  let a3 : ℝ := 1.781477937
  let a4 : ℝ := -1.821255978
  let a5 : ℝ := 1.330274429
  let p : ℝ := 0.2316419
  let t : ℝ := 1 / (1 + p * x)
  let poly : ℝ := t * (a1 + t * (a2 + t * (a3 + t * (a4 + t * a5))))
  1 - normal_pdf x * poly

/-- Embedding of `ito::math::normal_cdf`: for `x < 0` the source returns
`1 - normal_cdf(-x)` (and `-x > 0` takes the approximation branch). -/
noncomputable def normal_cdf (x : ℝ) : ℝ :=
  if x < 0 then 1 - normal_cdf_core (-x) else normal_cdf_core x

/-! ## `ito/model/black_scholes_model.hpp` -/

/-- Embedding of `ito::model::BlackScholesCreateInfo` (at `T = double`). -/
structure BlackScholesCreateInfo where
  spot_price : ℝ
  strike_price : ℝ
  risk_free_rate : ℝ
  volatility : ℝ
  time_to_maturity : ℝ

/-- Embedding of `BlackScholesCreateInfo::validate`; the C++ `throw` of
`std::invalid_argument` becomes an `Except.error` carrying the message. -/
noncomputable def BlackScholesCreateInfo.validate
    (info : BlackScholesCreateInfo) : Except String Unit :=
  if info.spot_price ≤ 0 then .error "Spot price must be positive"
  else if info.strike_price ≤ 0 then .error "Strike price must be positive"
  else if info.volatility < 0 then .error "Volatility cannot be negative"
  else if info.time_to_maturity ≤ 0 then .error "Time to maturity must be positive"
  else .ok ()

/-- Embedding of `BlackScholesModel::Greeks` (default-zero fields). -/
structure Greeks where
  delta : ℝ := 0
  gamma : ℝ := 0
  vega : ℝ := 0
  theta : ℝ := 0
  rho : ℝ := 0

/-- The `mutable` cache fields of `BlackScholesModel`, exactly as declared
in the class (initial values from the member initializers). -/
structure BSCache where
  d1 : ℝ := 0
  d2 : ℝ := 0
  d_cached : Bool := false
  call_greeks : Greeks := {}
  put_greeks : Greeks := {}
  call_greeks_cached : Bool := false
  put_greeks_cached : Bool := false

/-- Embedding of `ito::model::BlackScholesModel`: the five stored
parameters plus the mutable cache. -/
structure BlackScholesModel where
  S : ℝ
  K : ℝ
  r : ℝ
  sigma : ℝ
  T : ℝ
  cache : BSCache

/-- Embedding of the `BlackScholesModel` constructor: it stores the five
fields of the create info and calls `info.validate()`, so it throws
exactly when `validate` does. -/
noncomputable def mkBlackScholesModel
    (info : BlackScholesCreateInfo) : Except String BlackScholesModel :=
  match info.validate with
  | .error e => .error e
  | .ok _ => .ok
      { S := info.spot_price
        K := info.strike_price
        r := info.risk_free_rate
        sigma := info.volatility
        T := info.time_to_maturity
        cache := {} }

/-- Embedding of `BlackScholesModel::compute_d`: returns the cache after
the call (the C++ method mutates the cache fields in place). -/
noncomputable def BlackScholesModel.compute_d (m : BlackScholesModel) : BSCache :=
  if m.cache.d_cached then m.cache
  else
    let sqrt_T := Real.sqrt m.T
    let sigma_sqrt_T := m.sigma * sqrt_T
    let d1 := (Real.log (m.S / m.K) + (m.r + m.sigma * m.sigma / 2) * m.T) / sigma_sqrt_T
    { m.cache with d1 := d1, d2 := d1 - sigma_sqrt_T, d_cached := true }

/-- Embedding of `BlackScholesModel::call_price`: the returned price,
paired with the model as left after the call (cache possibly filled). -/
noncomputable def BlackScholesModel.call_price
    (m : BlackScholesModel) : ℝ × BlackScholesModel :=
  let c := m.compute_d
  (m.S * normal_cdf c.d1 - m.K * Real.exp (-m.r * m.T) * normal_cdf c.d2,
   { m with cache := c })

/-- Embedding of `BlackScholesModel::put_price` (the active, put-call
parity branch of the source: `P = C - S + K*e^(-rT)`). -/
noncomputable def BlackScholesModel.put_price
    (m : BlackScholesModel) : ℝ × BlackScholesModel :=
  let C := m.call_price
  (C.1 - m.S + m.K * Real.exp (-m.r * m.T), C.2)

/-- Embedding of `BlackScholesModel::compute_call_greeks`: fills the
call-Greeks cache (after ensuring `d1`, `d2` via `compute_d`). -/
noncomputable def BlackScholesModel.compute_call_greeks
    (m : BlackScholesModel) : BlackScholesModel :=
  if m.cache.call_greeks_cached then m
  else
    let c := m.compute_d
    let sqrt_T := Real.sqrt m.T
    let exp_neg_rT := Real.exp (-m.r * m.T)
    let phi_d1 := normal_pdf c.d1
    let g : Greeks :=
      { delta := normal_cdf c.d1
        gamma := phi_d1 / (m.S * m.sigma * sqrt_T)
        vega := m.S * phi_d1 * sqrt_T
        theta := -(m.S * phi_d1 * m.sigma) / (2 * sqrt_T)
          - m.r * m.K * exp_neg_rT * normal_cdf c.d2
        rho := m.K * m.T * exp_neg_rT * normal_cdf c.d2 }
    { m with cache := { c with call_greeks := g, call_greeks_cached := true } }

/-- Embedding of `BlackScholesModel::compute_put_greeks`. -/
noncomputable def BlackScholesModel.compute_put_greeks
    (m : BlackScholesModel) : BlackScholesModel :=
  if m.cache.put_greeks_cached then m
  else
    let c := m.compute_d
    let sqrt_T := Real.sqrt m.T
    let exp_neg_rT := Real.exp (-m.r * m.T)
    let phi_d1 := normal_pdf c.d1
    let g : Greeks :=
      { delta := normal_cdf c.d1 - 1
        gamma := phi_d1 / (m.S * m.sigma * sqrt_T)
        vega := m.S * phi_d1 * sqrt_T
        theta := -(m.S * phi_d1 * m.sigma) / (2 * sqrt_T)
          + m.r * m.K * exp_neg_rT * normal_cdf (-c.d2)
        rho := -m.K * m.T * exp_neg_rT * normal_cdf (-c.d2) }
    { m with cache := { c with put_greeks := g, put_greeks_cached := true } }

/-- Embedding of the `call_greeks` accessor: the returned `Greeks` value
together with the model as left after the call. -/
noncomputable def BlackScholesModel.call_greeks
    (m : BlackScholesModel) : Greeks × BlackScholesModel :=
  let m1 := m.compute_call_greeks
  (m1.cache.call_greeks, m1)

/-- Embedding of the `put_greeks` accessor. -/
noncomputable def BlackScholesModel.put_greeks
    (m : BlackScholesModel) : Greeks × BlackScholesModel :=
  let m1 := m.compute_put_greeks
  (m1.cache.put_greeks, m1)

/-! ## `ito/method/monte_carlo.hpp`

The `std::mt19937` generator together with `std::normal_distribution`
(external standard-library collaborators) are modelled abstractly: a
seed-indexed family of standard-normal variate streams `gen : ℕ → ℕ → ℝ`,
and a pricer that stores its seed's stream plus the current draw position
(the generator's advancing internal state).  Each `normal_(rng_)` draw in
the source reads the stream at the current position and advances it. -/

/-- Embedding of `MonteCarloCreateInfo::ExecutionPolicy`. -/
inductive ExecutionPolicy where
  | Auto
  | Sequential
  | Parallel
deriving DecidableEq

/-- Embedding of `ito::method::MonteCarloCreateInfo`.  The struct has no
validation of any kind; `seed` defaults to a `std::random_device` draw in
the source, which the embedding leaves unmodelled (no default). -/
structure MonteCarloCreateInfo where
  num_simulations : ℕ := 100000
  seed : ℕ
  policy : ExecutionPolicy := .Auto

/-- Embedding of `ito::method::MonteCarloResult`. -/
structure MonteCarloResult where
  price : ℝ
  standard_error : ℝ

/-- Embedding of `MonteCarloResult::confidence_interval`. -/
noncomputable def MonteCarloResult.confidence_interval
    (res : MonteCarloResult) : ℝ :=
  1.96 * res.standard_error

/-- Embedding of `ito::method::MonteCarloPricer`: the stored config and
the generator state (its variate stream and current draw position). -/
structure MonteCarloPricer where
  config : MonteCarloCreateInfo
  normals : ℕ → ℝ
  pos : ℕ

/-- Embedding of the `MonteCarloPricer` constructor.  It copies the config
and seeds the generator; it contains no validation and no throw path, so
it always returns `Except.ok` (the `Except` codomain records that a C++
constructor is the place where an exception could have been raised). -/
def mkMonteCarloPricer (gen : ℕ → ℕ → ℝ) (config : MonteCarloCreateInfo) :
    Except String MonteCarloPricer :=
  .ok { config := config, normals := gen config.seed, pos := 0 }

/-- Embedding of `MonteCarloPricer::simulate_gbm_terminal`: draws one
variate (advancing the generator) and maps it to a terminal price. -/
noncomputable def MonteCarloPricer.simulate_gbm_terminal
    (p : MonteCarloPricer) (S0 r sigma time : ℝ) : ℝ × MonteCarloPricer :=
  let Z := p.normals p.pos
  let drift := (r - sigma * sigma / 2) * time
  let diffusion := sigma * Real.sqrt time * Z
  (S0 * Real.exp (drift + diffusion), { p with pos := p.pos + 1 })

/-- The Bessel divisor `N - 1` of `compute_statistics` (the source divides
the accumulated squared deviations by the `size_t` value `N - 1`).  The
embedding uses truncated natural subtraction, faithful for every `N ≥ 1`;
the `size_t` wrap-around at `N = 0` is not modelled. -/
def bessel_divisor (N : ℕ) : ℝ := ((N - 1 : ℕ) : ℝ)

/-- Embedding of `MonteCarloPricer::compute_statistics`: mean via
`std::accumulate` (a left fold from `0`), Bessel-corrected sample variance
via the accumulation loop, discounted price and standard error. -/
noncomputable def compute_statistics
    (payoffs : List ℝ) (discount_factor : ℝ) : MonteCarloResult :=
  let N : ℕ := payoffs.length
  let total : ℝ := payoffs.foldl (fun acc x => acc + x) 0
  let mean : ℝ := total / N
  let variance : ℝ :=
    (payoffs.foldl (fun acc payoff => acc + (payoff - mean) * (payoff - mean)) 0)
      / bessel_divisor N
  let std_error : ℝ := Real.sqrt (variance / N)
  { price := discount_factor * mean
    standard_error := discount_factor * std_error }

/-- Embedding of `MonteCarloPricer::CallPutResult`. -/
structure CallPutResult where
  call : MonteCarloResult
  put : MonteCarloResult

/-- The loop body of `price_european_call_and_put_sequential`: for each of
`n` trials, simulate the terminal price once (advancing the generator) and
push both payoffs computed from that single price. -/
noncomputable def seq_loop (S0 K r sigma time : ℝ) :
    ℕ → MonteCarloPricer → List ℝ × List ℝ × MonteCarloPricer
  | 0, p => ([], [], p)
  | n + 1, p =>
    let step := p.simulate_gbm_terminal S0 r sigma time
    let rest := seq_loop S0 K r sigma time n step.2
    (max (step.1 - K) 0 :: rest.1, max (K - step.1) 0 :: rest.2.1, rest.2.2)

/-- Embedding of `price_european_call_and_put_sequential`: result paired
with the pricer as left after the call (generator advanced by `N`). -/
noncomputable def MonteCarloPricer.price_european_call_and_put_sequential
    (p : MonteCarloPricer) (S0 K r sigma time : ℝ) :
    CallPutResult × MonteCarloPricer :=
  let loop := seq_loop S0 K r sigma time p.config.num_simulations p
  let DF := Real.exp (-r * time)
  ({ call := compute_statistics loop.1 DF
     put := compute_statistics loop.2.1 DF }, loop.2.2)

/-- Step 1 of the parallel path: the `random_normals` vector, drawn
sequentially from the generator starting at the current position. -/
def MonteCarloPricer.par_random_normals (p : MonteCarloPricer) : List ℝ :=
  (List.range p.config.num_simulations).map fun i => p.normals (p.pos + i)

/-- Step 2 of the parallel path: `terminal_prices`, the parallel transform
of `random_normals` by `Z ↦ S0 * exp(drift + vol_sqrt_t * Z)` (the
`std::execution::par` transform is an element-wise pure map). -/
noncomputable def MonteCarloPricer.par_terminal_prices
    (p : MonteCarloPricer) (S0 r sigma time : ℝ) : List ℝ :=
  let drift := (r - sigma * sigma / 2) * time
  let vol_sqrt_t := sigma * Real.sqrt time
  p.par_random_normals.map fun Z => S0 * Real.exp (drift + vol_sqrt_t * Z)

/-- Step 3 of the parallel path: `call_payoffs`. -/
noncomputable def MonteCarloPricer.par_call_payoffs
    (p : MonteCarloPricer) (S0 K r sigma time : ℝ) : List ℝ :=
  (p.par_terminal_prices S0 r sigma time).map fun ST => max (ST - K) 0

/-- Step 3 of the parallel path: `put_payoffs`. -/
noncomputable def MonteCarloPricer.par_put_payoffs
    (p : MonteCarloPricer) (S0 K r sigma time : ℝ) : List ℝ :=
  (p.par_terminal_prices S0 r sigma time).map fun ST => max (K - ST) 0

/-- Embedding of `price_european_call_and_put_parallel`.  The sequential
draw loop of step 1 advances the generator by `N` positions. -/
noncomputable def MonteCarloPricer.price_european_call_and_put_parallel
    (p : MonteCarloPricer) (S0 K r sigma time : ℝ) :
    CallPutResult × MonteCarloPricer :=
  let DF := Real.exp (-r * time)
  ({ call := compute_statistics (p.par_call_payoffs S0 K r sigma time) DF
     put := compute_statistics (p.par_put_payoffs S0 K r sigma time) DF },
   { p with pos := p.pos + p.config.num_simulations })

/-- Embedding of the public `price_european_call_and_put` dispatcher. -/
noncomputable def MonteCarloPricer.price_european_call_and_put
    (p : MonteCarloPricer) (S0 K r sigma time : ℝ) :
    CallPutResult × MonteCarloPricer :=
  match p.config.policy with
  | .Sequential => p.price_european_call_and_put_sequential S0 K r sigma time
  | .Parallel => p.price_european_call_and_put_parallel S0 K r sigma time
  | .Auto =>
    if p.config.num_simulations ≥ 10000 then
      p.price_european_call_and_put_parallel S0 K r sigma time
    else
      p.price_european_call_and_put_sequential S0 K r sigma time

/-! ## Helper lemmas -/

/-- A successful construction stores exactly the five parameters of the
create info together with the empty (all-uncached) cache. -/
theorem mk_ok_elim (info : BlackScholesCreateInfo) (m : BlackScholesModel)
    (h : mkBlackScholesModel info = .ok m) :
    m = { S := info.spot_price, K := info.strike_price, r := info.risk_free_rate,
          sigma := info.volatility, T := info.time_to_maturity, cache := {} } := by
  unfold mkBlackScholesModel at h
  cases hv : info.validate with
  | error e => rw [hv] at h; exact absurd h (by simp)
  | ok u => rw [hv] at h; injection h with h; exact h.symm

/-- Fixed sample parameter set used by the concrete witnesses. -/
noncomputable def sample_info : BlackScholesCreateInfo :=
  { spot_price := 100, strike_price := 100, risk_free_rate := 0.05,
    volatility := 0.2, time_to_maturity := 1 }

/-- The model the constructor produces from `sample_info`. -/
noncomputable def sample_model : BlackScholesModel :=
  { S := 100, K := 100, r := 0.05, sigma := 0.2, T := 1, cache := {} }

theorem sample_mk : mkBlackScholesModel sample_info = .ok sample_model := by
  unfold mkBlackScholesModel BlackScholesCreateInfo.validate sample_info sample_model
  norm_num

/-- The validator succeeds exactly on the positive-parameter region. -/
theorem validate_ok_iff (info : BlackScholesCreateInfo) :
    info.validate = .ok () ↔
      (0 < info.spot_price ∧ 0 < info.strike_price ∧
        0 ≤ info.volatility ∧ 0 < info.time_to_maturity) := by
  unfold BlackScholesCreateInfo.validate
  split_ifs with h1 h2 h3 h4
  · simp; intro a b c; linarith
  · simp; intro a b c; linarith
  · simp; intro a b c; linarith
  · simp; intro a b c; linarith
  · push_neg at h1 h2 h3 h4
    simp [h1, h2, h4]
    linarith

theorem mk_ok_iff (info : BlackScholesCreateInfo) :
    (∃ m, mkBlackScholesModel info = .ok m) ↔ info.validate = .ok () := by
  unfold mkBlackScholesModel
  cases hv : info.validate with
  | error e => simp
  | ok u => cases u; simp

theorem mk_error_iff (info : BlackScholesCreateInfo) :
    (∃ e, mkBlackScholesModel info = .error e) ↔ info.validate ≠ .ok () := by
  unfold mkBlackScholesModel
  cases hv : info.validate with
  | error e => simp
  | ok u => cases u; simp

/-! ## Claim theorems -/

/-- Claim C5: constructing the analytical model raises an invalid-parameter
error if and only if `spot ≤ 0`, `strike ≤ 0`, `volatility < 0` or
`maturity ≤ 0`; equivalently it succeeds exactly when spot, strike and
maturity are positive and the volatility is nonnegative — the risk-free
rate is unconstrained in either direction. -/
theorem C5_invalid_parameter_iff (info : BlackScholesCreateInfo) :
    ((∃ e, mkBlackScholesModel info = .error e) ↔
      (info.spot_price ≤ 0 ∨ info.strike_price ≤ 0 ∨
        info.volatility < 0 ∨ info.time_to_maturity ≤ 0)) ∧
    ((∃ m, mkBlackScholesModel info = .ok m) ↔
      (0 < info.spot_price ∧ 0 < info.strike_price ∧
        0 ≤ info.volatility ∧ 0 < info.time_to_maturity)) := by
  constructor
  · rw [mk_error_iff, Ne, validate_ok_iff]
    simp only [not_and_or, not_lt, not_le]
  · rw [mk_ok_iff, validate_ok_iff]

/-- Claim C2: on every successfully constructed model, `call_price` returns
`S·Φ(d1) − K·e^(−rτ)·Φ(d2)` where `d1 = [ln(S/K) + (r + σ²/2)τ]/(σ√τ)` and
`d2 = d1 − σ√τ` are computed directly from the stored parameters; the pair
is cached by the first read, and later reads return the cache unchanged
(the same `d1`, `d2`). -/
theorem C2_call_price_formula (info : BlackScholesCreateInfo)
    (m : BlackScholesModel) (h : mkBlackScholesModel info = .ok m) :
    (m.call_price).1 =
      m.S * normal_cdf m.compute_d.d1
        - m.K * Real.exp (-m.r * m.T) * normal_cdf m.compute_d.d2 ∧
    m.compute_d.d1 =
      (Real.log (m.S / m.K) + (m.r + m.sigma * m.sigma / 2) * m.T)
        / (m.sigma * Real.sqrt m.T) ∧
    m.compute_d.d2 =
      (Real.log (m.S / m.K) + (m.r + m.sigma * m.sigma / 2) * m.T)
        / (m.sigma * Real.sqrt m.T) - m.sigma * Real.sqrt m.T ∧
    (m.call_price).2.compute_d = m.compute_d ∧
    (m.call_price).2.cache = m.compute_d := by
  have hm := mk_ok_elim info m h
  subst hm
  refine ⟨rfl, ?_, ?_, ?_, rfl⟩ <;>
    simp [BlackScholesModel.call_price, BlackScholesModel.compute_d]

theorem C2_call_price_formula_witness :
    mkBlackScholesModel sample_info = .ok sample_model ∧
    ((sample_model.call_price).1 =
      sample_model.S * normal_cdf sample_model.compute_d.d1
        - sample_model.K * Real.exp (-sample_model.r * sample_model.T)
          * normal_cdf sample_model.compute_d.d2 ∧
     sample_model.compute_d.d1 =
      (Real.log (sample_model.S / sample_model.K)
        + (sample_model.r + sample_model.sigma * sample_model.sigma / 2)
          * sample_model.T)
        / (sample_model.sigma * Real.sqrt sample_model.T) ∧
     sample_model.compute_d.d2 =
      (Real.log (sample_model.S / sample_model.K)
        + (sample_model.r + sample_model.sigma * sample_model.sigma / 2)
          * sample_model.T)
        / (sample_model.sigma * Real.sqrt sample_model.T)
        - sample_model.sigma * Real.sqrt sample_model.T ∧
     (sample_model.call_price).2.compute_d = sample_model.compute_d ∧
     (sample_model.call_price).2.cache = sample_model.compute_d) :=
  ⟨sample_mk, C2_call_price_formula sample_info sample_model sample_mk⟩

/-- Claim C3: on every successfully constructed model, `put_price` is the
put-call-parity expression `call_price − S + K·e^(−rτ)` (the source's
active branch), and consequently `call_price − put_price = S − K·e^(−rτ)`
holds exactly in the real-arithmetic embedding. -/
theorem C3_put_from_parity (info : BlackScholesCreateInfo)
    (m : BlackScholesModel) (h : mkBlackScholesModel info = .ok m) :
    (m.put_price).1 = (m.call_price).1 - m.S + m.K * Real.exp (-m.r * m.T) ∧
    (m.call_price).1 - (m.put_price).1 = m.S - m.K * Real.exp (-m.r * m.T) := by
  refine ⟨rfl, ?_⟩
  show (m.call_price).1 - ((m.call_price).1 - m.S + m.K * Real.exp (-m.r * m.T)) = _
  ring

theorem C3_put_from_parity_witness :
    mkBlackScholesModel sample_info = .ok sample_model ∧
    ((sample_model.put_price).1 =
      (sample_model.call_price).1 - sample_model.S
        + sample_model.K * Real.exp (-sample_model.r * sample_model.T) ∧
     (sample_model.call_price).1 - (sample_model.put_price).1 =
      sample_model.S
        - sample_model.K * Real.exp (-sample_model.r * sample_model.T)) :=
  ⟨sample_mk, C3_put_from_parity sample_info sample_model sample_mk⟩

/-- Claim C4: on every successfully constructed model, the call Greeks are
`{Φ(d1), φ(d1)/(Sσ√τ), Sφ(d1)√τ, −Sφ(d1)σ/(2√τ) − rKe^(−rτ)Φ(d2),
Kτe^(−rτ)Φ(d2)}` and the put Greeks are `{Φ(d1)−1, same gamma, same vega,
−Sφ(d1)σ/(2√τ) + rKe^(−rτ)Φ(−d2), −Kτe^(−rτ)Φ(−d2)}`, with `Φ`, `φ` the
program's `normal_cdf` and `normal_pdf` and `d1`, `d2` the cached pair. -/
theorem C4_greeks_formulas (info : BlackScholesCreateInfo)
    (m : BlackScholesModel) (h : mkBlackScholesModel info = .ok m) :
    (m.call_greeks).1.delta = normal_cdf m.compute_d.d1 ∧
    (m.call_greeks).1.gamma =
      normal_pdf m.compute_d.d1 / (m.S * m.sigma * Real.sqrt m.T) ∧
    (m.call_greeks).1.vega =
      m.S * normal_pdf m.compute_d.d1 * Real.sqrt m.T ∧
    (m.call_greeks).1.theta =
      -(m.S * normal_pdf m.compute_d.d1 * m.sigma) / (2 * Real.sqrt m.T)
        - m.r * m.K * Real.exp (-m.r * m.T) * normal_cdf m.compute_d.d2 ∧
    (m.call_greeks).1.rho =
      m.K * m.T * Real.exp (-m.r * m.T) * normal_cdf m.compute_d.d2 ∧
    (m.put_greeks).1.delta = normal_cdf m.compute_d.d1 - 1 ∧
    (m.put_greeks).1.gamma = (m.call_greeks).1.gamma ∧
    (m.put_greeks).1.vega = (m.call_greeks).1.vega ∧
    (m.put_greeks).1.theta =
      -(m.S * normal_pdf m.compute_d.d1 * m.sigma) / (2 * Real.sqrt m.T)
        + m.r * m.K * Real.exp (-m.r * m.T) * normal_cdf (-m.compute_d.d2) ∧
    (m.put_greeks).1.rho =
      -(m.K * m.T * Real.exp (-m.r * m.T) * normal_cdf (-m.compute_d.d2)) := by
  have hm := mk_ok_elim info m h
  subst hm
  refine ⟨?_, ?_, ?_, ?_, ?_, ?_, ?_, ?_, ?_, ?_⟩ <;>
    simp [BlackScholesModel.call_greeks, BlackScholesModel.put_greeks,
      BlackScholesModel.compute_call_greeks, BlackScholesModel.compute_put_greeks,
      BlackScholesModel.compute_d]

theorem C4_greeks_formulas_witness :
    mkBlackScholesModel sample_info = .ok sample_model ∧
    ((sample_model.call_greeks).1.delta =
        normal_cdf sample_model.compute_d.d1 ∧
     (sample_model.call_greeks).1.gamma =
        normal_pdf sample_model.compute_d.d1
          / (sample_model.S * sample_model.sigma * Real.sqrt sample_model.T) ∧
     (sample_model.call_greeks).1.vega =
        sample_model.S * normal_pdf sample_model.compute_d.d1
          * Real.sqrt sample_model.T ∧
     (sample_model.call_greeks).1.theta =
        -(sample_model.S * normal_pdf sample_model.compute_d.d1
            * sample_model.sigma) / (2 * Real.sqrt sample_model.T)
          - sample_model.r * sample_model.K
            * Real.exp (-sample_model.r * sample_model.T)
            * normal_cdf sample_model.compute_d.d2 ∧
     (sample_model.call_greeks).1.rho =
        sample_model.K * sample_model.T
          * Real.exp (-sample_model.r * sample_model.T)
          * normal_cdf sample_model.compute_d.d2 ∧
     (sample_model.put_greeks).1.delta =
        normal_cdf sample_model.compute_d.d1 - 1 ∧
     (sample_model.put_greeks).1.gamma = (sample_model.call_greeks).1.gamma ∧
     (sample_model.put_greeks).1.vega = (sample_model.call_greeks).1.vega ∧
     (sample_model.put_greeks).1.theta =
        -(sample_model.S * normal_pdf sample_model.compute_d.d1
            * sample_model.sigma) / (2 * Real.sqrt sample_model.T)
          + sample_model.r * sample_model.K
            * Real.exp (-sample_model.r * sample_model.T)
            * normal_cdf (-sample_model.compute_d.d2) ∧
     (sample_model.put_greeks).1.rho =
        -(sample_model.K * sample_model.T
            * Real.exp (-sample_model.r * sample_model.T)
            * normal_cdf (-sample_model.compute_d.d2))) :=
  ⟨sample_mk, C4_greeks_formulas sample_info sample_model sample_mk⟩

/-- An accumulation loop `acc += f x` over a list is the sum of the mapped
list added to the initial accumulator. -/
theorem foldl_add_map (f : ℝ → ℝ) :
    ∀ (l : List ℝ) (a : ℝ),
      l.foldl (fun acc x => acc + f x) a = a + (l.map f).sum
  | [], a => by simp
  | x :: l, a => by
    rw [List.foldl_cons, foldl_add_map f l (a + f x)]
    simp [add_assoc]

/-- Claim C8: for every payoff sample of size `N ≥ 2` and discount factor,
the statistics reduction returns `price = discount · (Σpayoff)/N` and
`standard_error = discount · √(variance/N)` with the Bessel-corrected
sample variance `variance = Σ(payoff − mean)²/(N − 1)`. -/
theorem C8_compute_statistics (payoffs : List ℝ) (df : ℝ)
    (h : 2 ≤ payoffs.length) :
    (compute_statistics payoffs df).price =
      df * (payoffs.sum / payoffs.length) ∧
    (compute_statistics payoffs df).standard_error =
      df * Real.sqrt
        (((payoffs.map fun x =>
            (x - payoffs.sum / payoffs.length) ^ 2).sum
          / ((payoffs.length : ℝ) - 1)) / payoffs.length) := by
  have hsum : payoffs.foldl (fun acc x => acc + x) 0 = payoffs.sum := by
    have := foldl_add_map (fun x => x) payoffs 0
    simpa using this
  have hdiv : bessel_divisor payoffs.length = (payoffs.length : ℝ) - 1 := by
    unfold bessel_divisor
    rw [Nat.cast_sub (by omega)]
    simp
  constructor
  · simp only [compute_statistics]
    rw [hsum]
  · simp only [compute_statistics]
    rw [hsum, hdiv,
      foldl_add_map (fun x => (x - payoffs.sum / payoffs.length)
        * (x - payoffs.sum / payoffs.length)) payoffs 0]
    have : (payoffs.map fun x =>
        (x - payoffs.sum / payoffs.length)
          * (x - payoffs.sum / payoffs.length)).sum =
      (payoffs.map fun x => (x - payoffs.sum / payoffs.length) ^ 2).sum := by
      have hfun : (fun x : ℝ =>
          (x - payoffs.sum / payoffs.length)
            * (x - payoffs.sum / payoffs.length)) =
          fun x : ℝ => (x - payoffs.sum / payoffs.length) ^ 2 :=
        funext fun x => by ring
      rw [hfun]
    rw [zero_add, this]

theorem C8_compute_statistics_witness :
    2 ≤ ([0, 2] : List ℝ).length ∧
    ((compute_statistics [0, 2] 1).price =
      1 * (([0, 2] : List ℝ).sum / ([0, 2] : List ℝ).length) ∧
     (compute_statistics [0, 2] 1).standard_error =
      1 * Real.sqrt
        (((([0, 2] : List ℝ).map fun x =>
            (x - ([0, 2] : List ℝ).sum / ([0, 2] : List ℝ).length) ^ 2).sum
          / ((([0, 2] : List ℝ).length : ℝ) - 1)) / ([0, 2] : List ℝ).length)) :=
  ⟨by simp, C8_compute_statistics [0, 2] 1 (by simp)⟩

/-- The GBM terminal price produced from the `i`-th variate drawn after
the pricer's current position: the per-element map
`Z ↦ S0·exp((r − σ²/2)τ + σ√τ·Z)` shared by both execution paths,
applied to draw `p.normals (p.pos + i)`. -/
noncomputable def gbm_at
    (p : MonteCarloPricer) (S0 r sigma time : ℝ) (i : ℕ) : ℝ :=
  S0 * Real.exp ((r - sigma * sigma / 2) * time
    + sigma * Real.sqrt time * p.normals (p.pos + i))

theorem gbm_at_shift (p : MonteCarloPricer) (S0 r sigma time : ℝ) (i : ℕ) :
    gbm_at { p with pos := p.pos + 1 } S0 r sigma time i =
      gbm_at p S0 r sigma time (i + 1) := by
  simp [gbm_at, show p.pos + 1 + i = p.pos + (i + 1) from by omega]

/-- Characterization of the sequential loop: the `i`-th call payoff and
the `i`-th put payoff both come from `gbm_at p … i`, and the generator is
advanced by exactly `n` positions. -/
theorem seq_loop_spec (S0 K r sigma time : ℝ) (n : ℕ) :
    ∀ p : MonteCarloPricer,
      seq_loop S0 K r sigma time n p =
        ((List.range n).map (fun i => max (gbm_at p S0 r sigma time i - K) 0),
         (List.range n).map (fun i => max (K - gbm_at p S0 r sigma time i) 0),
         { p with pos := p.pos + n }) := by
  induction n with
  | zero => intro p; simp [seq_loop]
  | succ n ih =>
    intro p
    simp only [seq_loop, MonteCarloPricer.simulate_gbm_terminal]
    rw [ih { p with pos := p.pos + 1 }]
    simp [List.range_succ_eq_map, List.map_map, Function.comp_def,
      gbm_at_shift, gbm_at, Prod.mk.injEq, Nat.succ_eq_add_one]
    refine ⟨fun a _ => by rw [show p.pos + 1 + a = p.pos + (a + 1) from by omega],
      fun a _ => by rw [show p.pos + 1 + a = p.pos + (a + 1) from by omega],
      by omega⟩

theorem par_terminal_prices_spec (p : MonteCarloPricer) (S0 r sigma time : ℝ) :
    p.par_terminal_prices S0 r sigma time =
      (List.range p.config.num_simulations).map
        (fun i => gbm_at p S0 r sigma time i) := by
  simp [MonteCarloPricer.par_terminal_prices, MonteCarloPricer.par_random_normals,
    List.map_map, Function.comp_def, gbm_at]

theorem par_call_payoffs_spec (p : MonteCarloPricer) (S0 K r sigma time : ℝ) :
    p.par_call_payoffs S0 K r sigma time =
      (List.range p.config.num_simulations).map
        (fun i => max (gbm_at p S0 r sigma time i - K) 0) := by
  simp [MonteCarloPricer.par_call_payoffs, par_terminal_prices_spec,
    List.map_map, Function.comp_def]

theorem par_put_payoffs_spec (p : MonteCarloPricer) (S0 K r sigma time : ℝ) :
    p.par_put_payoffs S0 K r sigma time =
      (List.range p.config.num_simulations).map
        (fun i => max (K - gbm_at p S0 r sigma time i) 0) := by
  simp [MonteCarloPricer.par_put_payoffs, par_terminal_prices_spec,
    List.map_map, Function.comp_def]

/-- Claim C6: in one pricing call, for every index `i < N`, both execution
paths compute the `i`-th call payoff `max(S(T) − K, 0)` and the `i`-th put
payoff `max(K − S(T), 0)` from one and the same `i`-th terminal price
(hence from the same variate draw `p.normals (p.pos + i)`); payoffs are
never derived from independently regenerated samples. -/
theorem C6_paired_samples (p : MonteCarloPricer) (S0 K r sigma time : ℝ)
    (i : ℕ) (hi : i < p.config.num_simulations) :
    ∃ ST : ℝ, ST = gbm_at p S0 r sigma time i ∧
      (seq_loop S0 K r sigma time p.config.num_simulations p).1[i]? =
        some (max (ST - K) 0) ∧
      (seq_loop S0 K r sigma time p.config.num_simulations p).2.1[i]? =
        some (max (K - ST) 0) ∧
      (p.par_terminal_prices S0 r sigma time)[i]? = some ST ∧
      (p.par_call_payoffs S0 K r sigma time)[i]? = some (max (ST - K) 0) ∧
      (p.par_put_payoffs S0 K r sigma time)[i]? = some (max (K - ST) 0) := by
  refine ⟨gbm_at p S0 r sigma time i, rfl, ?_, ?_, ?_, ?_, ?_⟩
  · rw [seq_loop_spec]
    simp [List.getElem?_map, List.getElem?_range, hi]
  · rw [seq_loop_spec]
    simp [List.getElem?_map, List.getElem?_range, hi]
  · rw [par_terminal_prices_spec]
    simp [List.getElem?_map, List.getElem?_range, hi]
  · rw [par_call_payoffs_spec]
    simp [List.getElem?_map, List.getElem?_range, hi]
  · rw [par_put_payoffs_spec]
    simp [List.getElem?_map, List.getElem?_range, hi]

/-- Concrete single-trial pricer used by the Monte Carlo witnesses. -/
def sample_pricer : MonteCarloPricer :=
  { config := { num_simulations := 1, seed := 0, policy := .Sequential },
    normals := fun _ => 0, pos := 0 }

theorem C6_paired_samples_witness :
    0 < sample_pricer.config.num_simulations ∧
    (∃ ST : ℝ, ST = gbm_at sample_pricer 1 0 0 1 0 ∧
      (seq_loop 1 1 0 0 1 sample_pricer.config.num_simulations
        sample_pricer).1[0]? = some (max (ST - 1) 0) ∧
      (seq_loop 1 1 0 0 1 sample_pricer.config.num_simulations
        sample_pricer).2.1[0]? = some (max (1 - ST) 0) ∧
      (sample_pricer.par_terminal_prices 1 0 0 1)[0]? = some ST ∧
      (sample_pricer.par_call_payoffs 1 1 0 0 1)[0]? =
        some (max (ST - 1) 0) ∧
      (sample_pricer.par_put_payoffs 1 1 0 0 1)[0]? =
        some (max (1 - ST) 0)) :=
  ⟨by decide, C6_paired_samples sample_pricer 1 1 0 0 1 0 (by decide)⟩

/-- Claim C7: from the same generator state and trial count, the
sequential and the parallel path produce identical results (call and put
price and standard error) and identical final generator states, the
sequential path too consuming exactly the `N` variates at positions
`p.pos, …, p.pos + N − 1`. -/
theorem C7_sequential_parallel_agree
    (p : MonteCarloPricer) (S0 K r sigma time : ℝ) :
    p.price_european_call_and_put_sequential S0 K r sigma time =
      p.price_european_call_and_put_parallel S0 K r sigma time ∧
    (p.price_european_call_and_put_sequential S0 K r sigma time).2.pos =
      p.pos + p.config.num_simulations := by
  unfold MonteCarloPricer.price_european_call_and_put_sequential
    MonteCarloPricer.price_european_call_and_put_parallel
  rw [seq_loop_spec, par_call_payoffs_spec, par_put_payoffs_spec]
  simp

/-- Claim C1 counterexample: the simulation configuration and pricer are
accepted unchecked for `N = 1` and `N = 0`; construction never returns an
error, contradicting the claimed construction-time rejection of `N < 2`. -/
theorem C1_counterexample :
    (mkMonteCarloPricer (fun _ _ => 0)
      { num_simulations := 1, seed := 0, policy := .Auto }).isOk = true ∧
    (mkMonteCarloPricer (fun _ _ => 0)
      { num_simulations := 0, seed := 0, policy := .Auto }).isOk = true :=
  ⟨rfl, rfl⟩

/-- Claim C1 (amended): pricer construction performs no validation at all —
it succeeds for every configuration, including trial counts `N = 0` and
`N = 1` — and at `N = 1` the Bessel divisor `N − 1` of the statistics
reduction equals `0`, so the variance computation is reached with a zero
divisor instead of the input being rejected at construction time. -/
theorem C1_no_construction_validation
    (gen : ℕ → ℕ → ℝ) (config : MonteCarloCreateInfo) :
    (mkMonteCarloPricer gen config).isOk = true ∧ bessel_divisor 1 = 0 :=
  ⟨rfl, by norm_num [bessel_divisor]⟩

/-! ## Numeric analysis of `normal_cdf` at `0` -/

theorem inv_sqrt_2pi_eq : inv_sqrt_2pi = 1 / Real.sqrt (2 * Real.pi) := by
  have h2 : Real.sqrt 2 ≠ 0 := by positivity
  have hp : Real.sqrt Real.pi ≠ 0 := by
    have := Real.pi_pos
    positivity
  rw [inv_sqrt_2pi, Real.sqrt_mul (by norm_num : (0:ℝ) ≤ 2)]
  field_simp
  ring

/-- At `x = 0` the approximation evaluates to
`1 − (a1+a2+a3+a4+a5)/√(2π)`, with coefficient sum `1.253314136`. -/
theorem normal_cdf_zero :
    normal_cdf 0 = 1 - 1.253314136 / Real.sqrt (2 * Real.pi) := by
  rw [normal_cdf, if_neg (lt_irrefl 0)]
  simp only [normal_cdf_core, normal_pdf, inv_sqrt_2pi_eq]
  norm_num
  ring

theorem sqrt_two_pi_gt : 2.5066282746 < Real.sqrt (2 * Real.pi) := by
  have h : (2.5066282746 : ℝ) ^ 2 < 2 * Real.pi := by
    nlinarith [Real.pi_gt_d20]
  exact (Real.lt_sqrt (by norm_num)).mpr h

theorem sqrt_two_pi_lt : Real.sqrt (2 * Real.pi) < 2.5066282747 := by
  have h : 2 * Real.pi < (2.5066282747 : ℝ) ^ 2 := by
    nlinarith [Real.pi_lt_d20]
  exact (Real.sqrt_lt' (by norm_num)).mpr h

/-- Claim C9 counterexample: at `x = 0` (explicitly included in the claim)
the symmetry sum `normal_cdf 0 + normal_cdf (−0)` misses `1` by about
`1.05·10⁻⁹`, which exceeds the claimed tolerance `10⁻¹⁰`. -/
theorem C9_counterexample :
    1 / 10 ^ 10 < |normal_cdf 0 + normal_cdf (-0) - 1| := by
  have hz : normal_cdf (-0 : ℝ) = normal_cdf 0 := by norm_num
  have hgt := sqrt_two_pi_gt
  have hlt := sqrt_two_pi_lt
  have hs : (0 : ℝ) < Real.sqrt (2 * Real.pi) := by linarith
  rw [hz, normal_cdf_zero]
  have key : (1.253314136 : ℝ) / Real.sqrt (2 * Real.pi)
      < 1 / 2 - 1 / 2 * (1 / 10 ^ 10) := by
    rw [div_lt_iff hs]
    nlinarith
  have e : (1 - 1.253314136 / Real.sqrt (2 * Real.pi))
      + (1 - 1.253314136 / Real.sqrt (2 * Real.pi)) - 1 =
      1 - 2 * (1.253314136 / Real.sqrt (2 * Real.pi)) := by ring
  have pos : (0 : ℝ) < 1 - 2 * (1.253314136 / Real.sqrt (2 * Real.pi)) := by
    nlinarith
  rw [e, abs_of_pos pos]
  nlinarith

/-- Claim C9 (amended): for `x < 0` the code returns `1 − normal_cdf(−x)`
(reflection identity), and `normal_cdf x + normal_cdf (−x) = 1` holds
exactly for every `x ≠ 0`; at `x = 0` the symmetry sum equals `1` only
within `10⁻⁷` (not `10⁻¹⁰`: see the counterexample), and `normal_cdf 0`
equals `0.5` within `10⁻⁷` as claimed. -/
theorem C9_cdf_reflection_and_symmetry :
    (∀ x : ℝ, x < 0 → normal_cdf x = 1 - normal_cdf (-x)) ∧
    (∀ x : ℝ, x ≠ 0 → normal_cdf x + normal_cdf (-x) = 1) ∧
    |normal_cdf 0 + normal_cdf (-0) - 1| ≤ 1 / 10 ^ 7 ∧
    |normal_cdf 0 - 0.5| ≤ 1 / 10 ^ 7 := by
  have hrefl : ∀ x : ℝ, x < 0 → normal_cdf x = 1 - normal_cdf (-x) := by
    intro x hx
    rw [normal_cdf, if_pos hx, normal_cdf, if_neg (by linarith)]
  have hgt := sqrt_two_pi_gt
  have hlt := sqrt_two_pi_lt
  have hs : (0 : ℝ) < Real.sqrt (2 * Real.pi) := by linarith
  have hub : (1.253314136 : ℝ) / Real.sqrt (2 * Real.pi) ≤ 0.50000005 := by
    rw [div_le_iff hs]
    nlinarith
  have hlb : (0.49999995 : ℝ) ≤ 1.253314136 / Real.sqrt (2 * Real.pi) := by
    rw [le_div_iff hs]
    nlinarith
  refine ⟨hrefl, ?_, ?_, ?_⟩
  · intro x hx
    rcases hx.lt_or_lt with h | h
    · rw [hrefl x h]; ring
    · have h' : -x < 0 := by linarith
      rw [hrefl (-x) h', neg_neg]; ring
  · have hz : normal_cdf (-0 : ℝ) = normal_cdf 0 := by norm_num
    rw [hz, normal_cdf_zero, abs_le]
    constructor <;> nlinarith
  · rw [normal_cdf_zero, abs_le]
    constructor <;> nlinarith

theorem C9_cdf_reflection_and_symmetry_witness :
    normal_cdf (-1) = 1 - normal_cdf (-(-1)) ∧
    normal_cdf 1 + normal_cdf (-1) = 1 :=
  ⟨C9_cdf_reflection_and_symmetry.1 (-1) (by norm_num),
   C9_cdf_reflection_and_symmetry.2.1 1 (by norm_num)⟩

end Ito
